import Mathlib

/-!
Verification of the texasholdem hand-history reconstruction scripts.

Shallow embedding of the relevant Python code:
  * `src/scrape_t1_advanced.py` — betting ledger
    (`calculate_voluntary_pot_and_preflop_raise`), winner extraction,
    file-index extraction, `rotate_right`, and the seat-rotation pass of
    `main`.
  * `src/scrape_t1.py` / `src/data_script.py` — the simpler winner and
    file-index extraction variants and the net-profit pass of `main`.

Dictionaries keyed by seat index are modelled as total functions
`Nat → Int` / `Nat → Bool` (the scripts only access keys `0..n-1`);
Python character strings are modelled as `List Char`; a Python function
that can raise a `ValueError` returns an explicit error value
(`WinnerOut.valueError`) or `none` instead.
-/

namespace TexasHoldem

/-! ## Betting ledger (scrape_t1_advanced.calculate_voluntary_pot_and_preflop_raise) -/

/-- Action kinds recognized by the ledger's if/elif chain; any other
token produced by the action regex `\((\d+),(\w+)(?:,(\d+))?\)` falls
through every branch and is a no-op, modelled by `OTHER`. -/
inductive ActKind where
  | RAISE | CALL | CHECK | FOLD | OTHER
  deriving DecidableEq, Repr

/-- One parsed action event: `{'player_id': …, 'action': …, 'total': …}`. -/
structure Action where
  pid : Nat
  kind : ActKind
  total : Option Int
  deriving DecidableEq, Repr

/-- The mutable state of `calculate_voluntary_pot_and_preflop_raise`:
`player_bets`, `voluntary_pot`, `preflop_raised`, `current_raise_to`. -/
structure LedgerState where
  player_bets : Nat → Int
  voluntary_pot : Nat → Int
  preflop_raised : Nat → Bool
  current_raise_to : Int

/-- Pointwise update of a seat-indexed integer map (a Python dict write). -/
def updI (f : Nat → Int) (k : Nat) (v : Int) : Nat → Int :=
  fun i => if i = k then v else f i

/-- Pointwise update of a seat-indexed boolean map (a Python dict write). -/
def updB (f : Nat → Bool) (k : Nat) (v : Bool) : Nat → Bool :=
  fun i => if i = k then v else f i

/-- One iteration of the `for action in preflop_actions` loop of
`calculate_voluntary_pot_and_preflop_raise` (`big_blind` is the
enclosing function's parameter, used only by the RAISE-without-total
branch). -/
def step (big_blind : Option Int) (s : LedgerState) (a : Action) : LedgerState :=
  match a.kind with
  | ActKind.RAISE =>
    let s1 : LedgerState := { s with preflop_raised := updB s.preflop_raised a.pid true }
    match a.total with
    | some t =>
      { s1 with
        player_bets := updI s1.player_bets a.pid t
        current_raise_to := t
        voluntary_pot := updI s1.voluntary_pot a.pid
          (s1.voluntary_pot a.pid + (t - s1.player_bets a.pid)) }
    | none =>
      let min_raise : Int :=
        if s1.current_raise_to > 0 then s1.current_raise_to * 2
        else match big_blind with
          | some v => v * 2
          | none => 0
      let amount_to_add := min_raise - s1.player_bets a.pid
      if amount_to_add > 0 then
        { s1 with
          player_bets := updI s1.player_bets a.pid min_raise
          current_raise_to := min_raise
          voluntary_pot := updI s1.voluntary_pot a.pid
            (s1.voluntary_pot a.pid + amount_to_add) }
      else s1
  | ActKind.CALL =>
    match a.total with
    | some t =>
      { s with
        player_bets := updI s.player_bets a.pid t
        voluntary_pot := updI s.voluntary_pot a.pid
          (s.voluntary_pot a.pid + (t - s.player_bets a.pid)) }
    | none =>
      let amount_to_add := s.current_raise_to - s.player_bets a.pid
      if amount_to_add > 0 then
        { s with
          player_bets := updI s.player_bets a.pid s.current_raise_to
          voluntary_pot := updI s.voluntary_pot a.pid
            (s.voluntary_pot a.pid + amount_to_add) }
      else s
  | ActKind.CHECK => s
  | ActKind.FOLD => s
  | ActKind.OTHER => s

/-- Initial `player_bets`: all zero, then
`player_bets[1] = small_blind` when `small_blind is not None and 1 < num_players`,
then `player_bets[2] = big_blind` when `big_blind is not None and 2 < num_players`. -/
def initBets (num_players : Nat) (big_blind small_blind : Option Int) : Nat → Int :=
  fun i =>
    if i = 2 ∧ 2 < num_players ∧ big_blind.isSome then big_blind.getD 0
    else if i = 1 ∧ 1 < num_players ∧ small_blind.isSome then small_blind.getD 0
    else 0

/-- The full replay of `calculate_voluntary_pot_and_preflop_raise`:
initial state (zero voluntary pots, zero raised flags, blind-initialized
bets, `current_raise_to = big_blind or 0`) folded through the action
list.  The Python function returns `(voluntary_pot, preflop_raised)`;
we keep the whole final state so that invariants about `player_bets`
and `current_raise_to` can be stated as well. -/
def calcState (preflop_actions : List Action) (num_players : Nat)
    (big_blind small_blind : Option Int) : LedgerState :=
  preflop_actions.foldl (step big_blind)
    { player_bets := initBets num_players big_blind small_blind
      voluntary_pot := fun _ => 0
      preflop_raised := fun _ => false
      current_raise_to := big_blind.getD 0 }

/-- Scenario A action list: `(0,RAISE,6);(1,CALL);(2,FOLD)`. -/
def scenarioA : List Action :=
  [⟨0, ActKind.RAISE, some 6⟩, ⟨1, ActKind.CALL, none⟩, ⟨2, ActKind.FOLD, none⟩]

/-! ## Seat rotation (rotate_right and the rotation pass of scrape_t1_advanced.main) -/

/-- Python `rotate_right(chips, shift)`: `shift %= len(chips)` then
`chips[-shift:] + chips[:-shift]` (Python slices; for `shift = 0` the
slice pair returns the list unchanged). -/
def rotate_right (chips : List Int) (shift : Nat) : List Int :=
  if shift % chips.length = 0 then chips
  else
    chips.drop (chips.length - shift % chips.length)
      ++ chips.take (chips.length - shift % chips.length)

/-- The three seat-indexed outputs of one hand after the rotation pass of
`scrape_t1_advanced.main`. -/
structure NormalizedHand where
  chips : List Int
  voluntary : Nat → Int
  raised : Nat → Bool

/-- The rotation pass of `scrape_t1_advanced.main` (lines 191–207):
`r = rotate_right(starting_chips, game_index % num_players)` and, for the
voluntary-pot and raised dicts,
`new_idx = (i + (game_index % num_players)) % num_players;
rotated[i] = original[new_idx]`. -/
def normalizeHand (starting_chips : List Int) (voluntary_pot : Nat → Int)
    (preflop_raised : Nat → Bool) (game_index : Nat) : NormalizedHand :=
  let num_players := starting_chips.length
  { chips := rotate_right starting_chips (game_index % num_players)
    voluntary := fun i => voluntary_pot ((i + game_index % num_players) % num_players)
    raised := fun i => preflop_raised ((i + game_index % num_players) % num_players) }

/-- The seat-index remapping used for the dicts in the rotation pass of
`main`: logical position `i` reads raw seat `(i + shift % n) % n` where
`shift` is the hand ordinal (`game_index`) and `n` the table size. -/
def seatMap (num_players : Nat) (shift : Nat) (i : Nat) : Nat :=
  (i + shift % num_players) % num_players

/-! ## Character-level string utilities (Python str / re / int modelled on List Char) -/

/-- Python whitespace characters stripped by `str.strip()` (ASCII subset). -/
def isWs (c : Char) : Bool :=
  c = ' ' || c = '\t' || c = '\n' || c = '\r' || c = '\x0b' || c = '\x0c'

/-- Python `str.strip()`: drop leading and trailing whitespace. -/
def stripWs (cs : List Char) : List Char :=
  ((cs.dropWhile isWs).reverse.dropWhile isWs).reverse

/-- Numeric value of a decimal digit string (most significant first). -/
def digitsVal (cs : List Char) : Nat :=
  cs.foldl (fun a c => a * 10 + (c.toNat - 48)) 0

/-- Python `int(str)` on a decimal string: strip whitespace, allow one
optional sign, then at least one digit; anything else raises
`ValueError`, modelled as `none`. -/
def parseIntPy (cs : List Char) : Option Int :=
  match stripWs cs with
  | [] => none
  | '-' :: rest =>
    if rest ≠ [] ∧ rest.all Char.isDigit then some (-(digitsVal rest : Int)) else none
  | '+' :: rest =>
    if rest ≠ [] ∧ rest.all Char.isDigit then some ((digitsVal rest : Int)) else none
  | l => if l.all Char.isDigit then some ((digitsVal l : Int)) else none

/-- Python `str.split(",")`: always returns at least one piece;
`"".split(",") == [""]`. -/
def splitOnComma (cs : List Char) : List (List Char) :=
  match cs with
  | [] => [[]]
  | c :: rest =>
    if c = ',' then [] :: splitOnComma rest
    else
      match splitOnComma rest with
      | [] => [[c]]
      | h :: t => (c :: h) :: t

/-- Characters up to (excluding) the first `]`, or `none` if there is
none: the tail of a `\[(.*?)\]` match. -/
def innerUpTo (cs : List Char) : Option (List Char) :=
  match cs with
  | [] => none
  | c :: rest => if c = ']' then some [] else (innerUpTo rest).map (fun l => c :: l)

/-- Python `re.search(r"\[(.*?)\]", line)`: group 1 of the leftmost match —
the content between the first `[` and the first `]` after it (if the
first `[` has no closing `]`, no later `[` can have one either, so the
whole search fails). -/
def bracketInner (cs : List Char) : Option (List Char) :=
  match cs with
  | [] => none
  | c :: rest => if c = '[' then innerUpTo rest else bracketInner rest

/-! ## Winner extraction -/

/-- Outcome of a winner-extraction call: Python `None`, an `int`, or a
raised `ValueError`. -/
inductive WinnerOut where
  | valueError
  | noWin
  | win (k : Int)
  deriving DecidableEq, Repr

/-- Python `int(w.strip())` over every comma piece, as the list comprehension
`[int(w.strip()) for w in x.split(",")]` does: any failing conversion
raises (`none`). -/
def allParse (ps : List (List Char)) : Option (List Int) :=
  match ps with
  | [] => some []
  | p :: rest =>
    match parseIntPy (stripWs p), allParse rest with
    | some v, some vs => some (v :: vs)
    | _, _ => none

/-- Function `extract_winner` of `scrape_t1_advanced.py`: no bracket or empty
bracket ⇒ `None`; one index ⇒ that index; several ⇒ `None` (tie). -/
def extract_winner_adv (line : List Char) : WinnerOut :=
  match bracketInner line with
  | none => WinnerOut.noWin
  | some g =>
    let x := stripWs g
    if x = [] then WinnerOut.noWin
    else
      match allParse (splitOnComma x) with
      | none => WinnerOut.valueError
      | some winners =>
        if winners.length = 1 then WinnerOut.win (winners.headD 0)
        else WinnerOut.noWin

/-- Function `extract_winner` of `scrape_t1.py` and of `data_script.py` (both
behave identically): no bracket or empty bracket ⇒ `None`; otherwise
`int(inner)` on the whole stripped content, which raises on a
comma-separated list. -/
def extract_winner_t1 (line : List Char) : WinnerOut :=
  match bracketInner line with
  | none => WinnerOut.noWin
  | some g =>
    let x := stripWs g
    if x = [] then WinnerOut.noWin
    else
      match parseIntPy x with
      | some v => WinnerOut.win v
      | none => WinnerOut.valueError

/-! ## File-index extraction -/

/-- Python `os.path.basename` for POSIX paths: the part after the last `/`. -/
def basename (cs : List Char) : List Char :=
  (cs.reverse.takeWhile (fun c => c != '/')).reverse

/-- Python `re.match(r"texas(?:\((\d+)\))?\.pgn$", base)`:
`none` = no match, `some none` = match with the group absent
(`texas.pgn`), `some (some ds)` = match with digit-group `ds`
(`texas(ds).pgn`, `ds` nonempty). -/
def matchTexas (cs : List Char) : Option (Option (List Char)) :=
  if cs.take 5 = ['t', 'e', 'x', 'a', 's'] then
    let rest := cs.drop 5
    if rest = ['.', 'p', 'g', 'n'] then some none
    else
      match rest with
      | '(' :: rest2 =>
        let ds := rest2.takeWhile Char.isDigit
        let after := rest2.dropWhile Char.isDigit
        if ds ≠ [] ∧ after = [')', '.', 'p', 'g', 'n'] then some (some ds)
        else none
      | _ => none
  else none

/-- Function `extract_file_index` of `data_script.py`: no match ⇒ `999999`,
group absent ⇒ `0`, group present ⇒ its value. -/
def extract_file_index_ds (name : List Char) : Nat :=
  match matchTexas (basename name) with
  | none => 999999
  | some none => 0
  | some (some ds) => digitsVal ds

/-- Function `extract_file_index` of `scrape_t1.py` and `scrape_t1_advanced.py`:
`int(m.group(1)) if m and m.group(1) else 0` — both a non-matching name
and an unsuffixed one yield `0`. -/
def extract_file_index_t1 (name : List Char) : Nat :=
  match matchTexas (basename name) with
  | some (some ds) => digitsVal ds
  | _ => 0

/-! ## Net-profit pass (data_script.main, second pass) -/

/-- Per-seat net profits for one non-terminal hand:
`n = min(len(cur_chips), len(next_chips), num_players)`,
`profits = [next_chips[j] - cur_chips[j] for j in range(n)]`, and the
row stores `profits[p] if p < len(profits) else None` for
`p in range(num_players)`. -/
def netRow (cur nxt : List Int) (num_players : Nat) : List (Option Int) :=
  (List.range num_players).map (fun p =>
    if p < min (min cur.length nxt.length) num_players
    then some (nxt.getD p 0 - cur.getD p 0) else none)

/-- The whole second pass of `data_script.main`: `num_players` is the
first hand's chip-vector length; every hand but the last gets a
`netRow` against the next hand; the last hand gets `None` in every
seat column. -/
def emitNets (hands : List (List Int)) : List (List (Option Int)) :=
  (List.range hands.length).map (fun i =>
    if i < hands.length - 1 then
      netRow (hands.getD i []) (hands.getD (i + 1) []) (hands.headD []).length
    else
      (List.range (hands.headD []).length).map (fun _ => (none : Option Int)))

end TexasHoldem

open TexasHoldem

/-- C1: replaying the 3-seat preflop sequence (0,RAISE,6);(1,CALL);(2,FOLD)
with blinds small=1 (seat 1), big=2 (seat 2) yields voluntary
contributions 6, 5, 0 and raised flags true, false, false. -/
theorem C1_scenarioA :
    (calcState scenarioA 3 (some 2) (some 1)).voluntary_pot 0 = 6
    ∧ (calcState scenarioA 3 (some 2) (some 1)).preflop_raised 0 = true
    ∧ (calcState scenarioA 3 (some 2) (some 1)).voluntary_pot 1 = 5
    ∧ (calcState scenarioA 3 (some 2) (some 1)).preflop_raised 1 = false
    ∧ (calcState scenarioA 3 (some 2) (some 1)).voluntary_pot 2 = 0
    ∧ (calcState scenarioA 3 (some 2) (some 1)).preflop_raised 2 = false := by
  decide

/-- C2 counterexample: with small blind 1 at seat 1, a CALL event by seat 1
declaring total 0 (below the already-committed 1) drives seat 1's
voluntary contribution to −1: the explicit-total CALL branch does not
clamp the negative delta, and the accumulator decreases below zero. -/
theorem C2_counterexample :
    (calcState [⟨1, ActKind.CALL, some 0⟩] 3 (some 2) (some 1)).voluntary_pot 1 = -1 ∧
    (calcState [⟨1, ActKind.CALL, some 0⟩] 3 (some 2) (some 1)).voluntary_pot 1 < 0 := by
  decide

/-- C2 amended: a CALL with explicit total applies the delta
`total − committed` unclamped (so the voluntary accumulator can decrease
and go negative), while a CALL without explicit total applies its
inferred delta only when positive, so it never decreases any seat's
voluntary contribution. -/
theorem C2_call_deltas (big_blind : Option Int) (s : LedgerState) (pid : Nat) (t : Int) :
    (step big_blind s ⟨pid, ActKind.CALL, some t⟩).voluntary_pot pid
      = s.voluntary_pot pid + (t - s.player_bets pid)
    ∧ ∀ u, s.voluntary_pot u ≤ (step big_blind s ⟨pid, ActKind.CALL, none⟩).voluntary_pot u := by
  constructor
  · simp [step, updI]
  · intro u
    simp only [step]
    split
    · rename_i hpos
      by_cases hu : u = pid
      · subst hu
        simp only [updI, if_pos rfl, if_true]
        linarith
      · simp [updI, hu]
    · exact le_refl _

/-- C3 counterexample: after `(0,RAISE,6);(1,RAISE,3)` the table bet
level is 3, not `max 6 3 = 6`, and lies strictly below the highest total
committed this street (seat 0's 6): a RAISE with explicit total
overwrites `current_raise_to` instead of taking a maximum. -/
theorem C3_counterexample :
    let st := calcState [⟨0, ActKind.RAISE, some 6⟩, ⟨1, ActKind.RAISE, some 3⟩] 3 (some 2) (some 1)
    st.current_raise_to = 3 ∧ st.player_bets 0 = 6 ∧
    st.current_raise_to ≠ max 6 3 ∧ st.current_raise_to < st.player_bets 0 := by
  decide

/-- C3 amended: a RAISE with explicit total `t` sets the current bet
level to `t` unconditionally (never `max` with the previous level), sets
the seat's committed amount to `t`, and marks the seat as having
raised. -/
theorem C3_raise_sets_level (big_blind : Option Int) (s : LedgerState) (pid : Nat) (t : Int) :
    (step big_blind s ⟨pid, ActKind.RAISE, some t⟩).current_raise_to = t
    ∧ (step big_blind s ⟨pid, ActKind.RAISE, some t⟩).player_bets pid = t
    ∧ (step big_blind s ⟨pid, ActKind.RAISE, some t⟩).preflop_raised pid = true := by
  refine ⟨rfl, ?_, ?_⟩ <;> simp [step, updI, updB]

/-- A ledger step leaves a seat's voluntary pot unchanged whenever the
event belongs to another seat or is a CHECK, FOLD or unrecognized
action. -/
theorem step_voluntary_unchanged (big_blind : Option Int) (s : LedgerState) (a : Action)
    (seat : Nat) (h : a.pid = seat → a.kind = ActKind.CHECK ∨ a.kind = ActKind.FOLD ∨
      a.kind = ActKind.OTHER) :
    (step big_blind s a).voluntary_pot seat = s.voluntary_pot seat := by
  rcases a with ⟨pid, kind, total⟩
  by_cases hp : pid = seat
  · rcases h hp with hk | hk | hk <;> subst hk <;> rfl
  · have hps : ¬ seat = pid := fun hh => hp hh.symm
    cases kind <;> rcases total with _ | t <;> simp only [step] <;> (try split) <;>
      (try split) <;> simp [updI, hps]

/-- Folding the ledger over a list of actions that, for a given seat,
contains only CHECK/FOLD/unrecognized events of that seat leaves that
seat's voluntary pot unchanged. -/
theorem fold_voluntary_unchanged (big_blind : Option Int) (seat : Nat) :
    ∀ (acts : List Action) (s : LedgerState),
      (∀ a ∈ acts, a.pid = seat → a.kind = ActKind.CHECK ∨ a.kind = ActKind.FOLD ∨
        a.kind = ActKind.OTHER) →
      (acts.foldl (step big_blind) s).voluntary_pot seat = s.voluntary_pot seat := by
  intro acts
  induction acts with
  | nil => intro s _; rfl
  | cons a rest ih =>
    intro s h
    have h1 := h a (List.mem_cons_self a rest)
    have h2 : ∀ b ∈ rest, b.pid = seat → b.kind = ActKind.CHECK ∨ b.kind = ActKind.FOLD ∨
        b.kind = ActKind.OTHER := fun b hb => h b (List.mem_cons_of_mem a hb)
    calc ((a :: rest).foldl (step big_blind) s).voluntary_pot seat
        = (rest.foldl (step big_blind) (step big_blind s a)).voluntary_pot seat := rfl
      _ = (step big_blind s a).voluntary_pot seat := ih (step big_blind s a) h2
      _ = s.voluntary_pot seat := step_voluntary_unchanged big_blind s a seat h1

/-- C4: blinds are never counted as voluntary contribution — a seat
whose every action in the replayed street is a CHECK or a FOLD ends the
replay with voluntary contribution 0, whatever blinds initialized its
committed amount. -/
theorem C4_blinds_not_voluntary (acts : List Action) (num_players : Nat)
    (big_blind small_blind : Option Int) (seat : Nat)
    (h : ∀ a ∈ acts, a.pid = seat → a.kind = ActKind.CHECK ∨ a.kind = ActKind.FOLD) :
    (calcState acts num_players big_blind small_blind).voluntary_pot seat = 0 :=
  fold_voluntary_unchanged big_blind seat acts _
    (fun a ha hpa => by rcases h a ha hpa with hk | hk
                        · exact Or.inl hk
                        · exact Or.inr (Or.inl hk))

/-- C4 witness: seat 2 of Scenario A only folds, and its voluntary
contribution is 0 even though the big blind 2 initialized its committed
amount. -/
theorem C4_witness :
    (calcState scenarioA 3 (some 2) (some 1)).voluntary_pot 2 = 0 :=
  C4_blinds_not_voluntary scenarioA 3 (some 2) (some 1) 2 (by decide)

/-- C5 (bug evidence): with 3 players and hand ordinal 1, raw
voluntary totals (6, 5, 0) and raw chips (500, 495, 507), the emitted
record pairs raw seat 2's chips (507) with raw seat 1's voluntary total
(5) at logical position 0 — the chip list is rotated right by the
offset while the voluntary/raised dicts are rotated left, so the two
mappings originate from different raw seats. -/
theorem C5_rotation_mismatch :
    (normalizeHand [500, 495, 507]
      (fun i => if i = 0 then 6 else if i = 1 then 5 else 0) (fun i => i == 0) 1).chips
      = [507, 500, 495]
    ∧ (normalizeHand [500, 495, 507]
      (fun i => if i = 0 then 6 else if i = 1 then 5 else 0) (fun i => i == 0) 1).voluntary 0
      = 5
    ∧ (normalizeHand [500, 495, 507]
      (fun i => if i = 0 then 6 else if i = 1 then 5 else 0) (fun i => i == 0) 1).voluntary 0
      ≠ 0
    ∧ (normalizeHand [500, 495, 507]
      (fun i => if i = 0 then 6 else if i = 1 then 5 else 0) (fun i => i == 0) 1).raised 0
      = false
    ∧ (normalizeHand [500, 495, 507]
      (fun i => if i = 0 then 6 else if i = 1 then 5 else 0) (fun i => i == 0) 1).raised 2
      = true := by
  decide

/-- C6 counterexample: on the well-formed two-winner line
`Winners: (Pot 0,20,-1,[0,2])`, the `extract_winner` of `scrape_t1.py`
and `data_script.py` raises a `ValueError` (it feeds the whole bracket
content `0,2` to `int`), while only the advanced variant returns the
no-single-winner value. -/
theorem C6_counterexample :
    extract_winner_t1 ("Winners: (Pot 0,20,-1,[0,2])".toList) = WinnerOut.valueError ∧
    extract_winner_adv ("Winners: (Pot 0,20,-1,[0,2])".toList) = WinnerOut.noWin := by
  constructor <;> rfl

/-- C6 amended: the advanced variant's winner parsing never fails on a
well-formed bracketed list and implements the policy — no bracket or
empty bracket ⇒ no winner; when every comma piece of the bracket content
parses as an integer, exactly one index ⇒ that seat, and two or more ⇒
the no-single-winner value (never the first index, never an error). -/
theorem C6_winner_policy :
    (∀ line : List Char, bracketInner line = none →
      extract_winner_adv line = WinnerOut.noWin)
    ∧ (∀ (line g : List Char), bracketInner line = some g → stripWs g = [] →
      extract_winner_adv line = WinnerOut.noWin)
    ∧ (∀ (line g : List Char) (ws : List Int), bracketInner line = some g →
      allParse (splitOnComma (stripWs g)) = some ws →
      extract_winner_adv line =
        (match ws with
          | [w] => WinnerOut.win w
          | _ => WinnerOut.noWin)) := by
  refine ⟨?_, ?_, ?_⟩
  · intro line hb
    simp [extract_winner_adv, hb]
  · intro line g hb hg
    simp [extract_winner_adv, hb, hg]
  · intro line g ws hb hp
    by_cases hg : stripWs g = []
    · rw [hg] at hp
      simp [allParse, splitOnComma, parseIntPy, stripWs] at hp
    · simp only [extract_winner_adv, hb, if_neg hg, hp]
      match ws with
      | [] => rfl
      | [w] => rfl
      | w :: v :: rest => rfl

/-- C6 witness: on `Winners: [3]` the advanced parser, via the policy
theorem, returns seat 3. -/
theorem C6_witness : extract_winner_adv ("Winners: [3]".toList) = WinnerOut.win 3 := by
  have h := C6_winner_policy.2.2 ("Winners: [3]".toList) ['3'] [(3 : Int)] (by rfl) (by rfl)
  exact h

/-- Reading a mapped range with `getD` evaluates the mapped function. -/
theorem range_map_getD {β : Type} (k : Nat) (g : Nat → β) (i : Nat) (d : β) (hi : i < k) :
    ((List.range k).map g).getD i d = g i := by
  rw [List.getD_eq_getElem?_getD, List.getElem?_map, List.getElem?_range hi]
  rfl

/-- Reading with `getD` at an in-range index gives a member of the list. -/
theorem getD_mem {α : Type} (l : List α) (i : Nat) (d : α) (hi : i < l.length) :
    l.getD i d ∈ l := by
  rw [List.getD_eq_getElem?_getD, List.getElem?_eq_getElem hi]
  exact List.getElem_mem hi

/-- C7: for a session of at least two hands whose chip vectors all have
length `n`, every non-terminal hand's reported net profit at every seat
is the difference of consecutive starting stacks, and the terminal
hand's net profit is the explicit no-data marker (`none`) at every
seat. -/
theorem C7_net_profit (hands : List (List Int)) (n : Nat)
    (hn2 : 2 ≤ hands.length)
    (hlen : ∀ h ∈ hands, h.length = n) :
    (∀ i seat, i + 1 < hands.length → seat < n →
      ((emitNets hands).getD i []).getD seat none
        = some ((hands.getD (i + 1) []).getD seat 0 - (hands.getD i []).getD seat 0))
    ∧ ∀ seat, seat < n →
      ((emitNets hands).getD (hands.length - 1) []).getD seat none = none := by
  have hhd : (hands.headD []).length = n := by
    cases hands with
    | nil => simp at hn2
    | cons a t => exact hlen a (List.mem_cons_self a t)
  constructor
  · intro i seat hi hseat
    have hiL : i < hands.length := by omega
    have hrow : (emitNets hands).getD i []
        = netRow (hands.getD i []) (hands.getD (i + 1) []) (hands.headD []).length := by
      unfold emitNets
      rw [range_map_getD _ _ _ _ hiL, if_pos (by omega : i < hands.length - 1)]
    have hcur : (hands.getD i []).length = n := hlen _ (getD_mem _ _ _ hiL)
    have hnxt : (hands.getD (i + 1) []).length = n := hlen _ (getD_mem _ _ _ hi)
    rw [hrow]
    unfold netRow
    rw [hhd, range_map_getD _ _ _ _ hseat, hcur, hnxt,
      if_pos (by omega : seat < min (min n n) n)]
  · intro seat hseat
    have hL : hands.length - 1 < hands.length := by omega
    have hrow : (emitNets hands).getD (hands.length - 1) []
        = (List.range (hands.headD []).length).map (fun _ => (none : Option Int)) := by
      unfold emitNets
      rw [range_map_getD _ _ _ _ hL,
        if_neg (by omega : ¬ hands.length - 1 < hands.length - 1)]
    rw [hrow, hhd, range_map_getD _ _ _ _ hseat]

/-- C7 witness: for the two-hand session `[500,495,507]` then
`[510,485,507]`, hand 0's net at seat 0 is `some 10` and hand 1 (the
terminal hand) reports `none` at seat 2. -/
theorem C7_witness :
    ((emitNets [[500, 495, 507], [510, 485, 507]]).getD 0 []).getD 0 none = some 10
    ∧ ((emitNets [[500, 495, 507], [510, 485, 507]]).getD 1 []).getD 2 none = none := by
  constructor
  · have h := (C7_net_profit [[500, 495, 507], [510, 485, 507]] 3 (by decide)
      (by decide)).1 0 0 (by decide) (by decide)
    simpa using h
  · exact (C7_net_profit [[500, 495, 507], [510, 485, 507]] 3 (by decide)
      (by decide)).2 2 (by decide)

/-- C8 counterexample: a session whose second hand has only two seats is
not rejected and raises nothing — both hands are emitted, the
non-terminal hand's per-seat nets are silently truncated to the shorter
vector (seat 2 gets the no-data marker), exactly the behavior the claim
rules out. -/
theorem C8_counterexample :
    emitNets [[500, 500, 500], [510, 490]]
      = [[some 10, some (-10), none], [none, none, none]] := by
  decide

/-- C8 amended: mismatched chip-vector lengths are not surfaced as an
error — the emitter always yields one row per hand, computes a net only
for seats below the minimum of the two adjacent vector lengths and the
table size, and fills every remaining seat with the no-data marker. -/
theorem C8_truncation (hands : List (List Int)) (cur nxt : List Int) (np p : Nat) :
    (emitNets hands).length = hands.length
    ∧ (p < min (min cur.length nxt.length) np →
        (netRow cur nxt np).getD p none = some (nxt.getD p 0 - cur.getD p 0))
    ∧ (min (min cur.length nxt.length) np ≤ p → p < np →
        (netRow cur nxt np).getD p none = none) := by
  refine ⟨?_, ?_, ?_⟩
  · simp [emitNets]
  · intro hp
    have hpn : p < np := lt_of_lt_of_le hp (min_le_right _ _)
    unfold netRow
    rw [range_map_getD _ _ _ _ hpn, if_pos hp]
  · intro h1 h2
    unfold netRow
    rw [range_map_getD _ _ _ _ h2, if_neg (by omega)]

/-- C8 witness: in the mismatched session above, the emitter still
produces two rows and seat 2 of the truncated row carries the no-data
marker. -/
theorem C8_witness :
    (emitNets [[500, 500, 500], [510, 490]]).length = 2
    ∧ (netRow [500, 500, 500] [510, 490] 3).getD 2 none = none := by
  have h := C8_truncation [[500, 500, 500], [510, 490]] [500, 500, 500] [510, 490] 3 2
  exact ⟨h.1, h.2.2 (by decide) (by decide)⟩

/-- A `takeWhile` keeps a whole list on which the predicate holds. -/
theorem takeWhile_all {α : Type} (p : α → Bool) (l : List α) (h : ∀ x ∈ l, p x = true) :
    l.takeWhile p = l := by
  induction l with
  | nil => rfl
  | cons a t ih =>
    rw [List.takeWhile_cons, h a (List.mem_cons_self a t)]
    simp [ih (fun x hx => h x (List.mem_cons_of_mem a hx))]

/-- A `takeWhile` over an all-true block followed by a failing element
returns exactly the block. -/
theorem takeWhile_all_append {α : Type} (p : α → Bool) (xs : List α) (y : α) (ys : List α)
    (hx : ∀ x ∈ xs, p x = true) (hy : p y = false) :
    (xs ++ y :: ys).takeWhile p = xs := by
  induction xs with
  | nil => simp [List.takeWhile_cons, hy]
  | cons a t ih =>
    rw [List.cons_append, List.takeWhile_cons, hx a (List.mem_cons_self a t)]
    simp [ih (fun x hxx => hx x (List.mem_cons_of_mem a hxx))]

/-- A `dropWhile` over an all-true block followed by a failing element
returns the failing element and its tail. -/
theorem dropWhile_all_append {α : Type} (p : α → Bool) (xs : List α) (y : α) (ys : List α)
    (hx : ∀ x ∈ xs, p x = true) (hy : p y = false) :
    (xs ++ y :: ys).dropWhile p = y :: ys := by
  induction xs with
  | nil => simp [List.dropWhile_cons, hy]
  | cons a t ih =>
    rw [List.cons_append, List.dropWhile_cons]
    simp [hx a (List.mem_cons_self a t), ih (fun x hxx => hx x (List.mem_cons_of_mem a hxx))]

/-- The `basename` function is the identity on a name without a path separator. -/
theorem basename_no_slash (cs : List Char) (h : ∀ c ∈ cs, (c != '/') = true) :
    basename cs = cs := by
  unfold basename
  rw [takeWhile_all _ _ (fun x hx => h x (List.mem_reverse.mp hx)), List.reverse_reverse]

/-- A decimal digit is not the path separator. -/
theorem digit_ne_slash (c : Char) (h : c.isDigit = true) : (c != '/') = true := by
  rw [bne_iff_ne]
  intro hc
  subst hc
  exact absurd h (by decide)

/-- C9 counterexample: the `scrape_t1.py`/`scrape_t1_advanced.py` key
maps the non-matching name `foo.pgn` to 0, which sorts before the
matching `texas(1).pgn` (key 1), not after all matching documents; the
`data_script.py` key maps non-matching names to 999999, which a matching
`texas(1000000).pgn` (key 1000000) also sorts after. -/
theorem C9_counterexample :
    extract_file_index_t1 ("foo.pgn".toList) = 0
    ∧ extract_file_index_t1 ("texas(1).pgn".toList) = 1
    ∧ extract_file_index_t1 ("foo.pgn".toList) < extract_file_index_t1 ("texas(1).pgn".toList)
    ∧ extract_file_index_ds ("other.pgn".toList) = 999999
    ∧ extract_file_index_ds ("texas(1000000).pgn".toList) = 1000000
    ∧ extract_file_index_ds ("other.pgn".toList)
        < extract_file_index_ds ("texas(1000000).pgn".toList) := by
  refine ⟨rfl, rfl, by decide, rfl, rfl, by decide⟩

/-- C9 amended: both ordering keys map an unsuffixed `texas.pgn` to 0
and a `texas(ds).pgn` name to the numeric value of its digit suffix, and
neither aborts on a non-matching name; but a non-matching name is mapped
to 999999 by the `data_script.py` key (after matching documents only
when their index stays below 999999) and to 0 by the
`scrape_t1.py`/`scrape_t1_advanced.py` key, where it sorts together with
the unsuffixed document, before suffixed ones. -/
theorem C9_file_index (ds : List Char) (hne : ds ≠ [])
    (hdig : ∀ c ∈ ds, c.isDigit = true) :
    extract_file_index_ds
        ('t' :: 'e' :: 'x' :: 'a' :: 's' :: '(' :: (ds ++ [')', '.', 'p', 'g', 'n']))
      = digitsVal ds
    ∧ extract_file_index_t1
        ('t' :: 'e' :: 'x' :: 'a' :: 's' :: '(' :: (ds ++ [')', '.', 'p', 'g', 'n']))
      = digitsVal ds
    ∧ extract_file_index_ds ['t', 'e', 'x', 'a', 's', '.', 'p', 'g', 'n'] = 0
    ∧ extract_file_index_t1 ['t', 'e', 'x', 'a', 's', '.', 'p', 'g', 'n'] = 0
    ∧ ∀ nm : List Char, matchTexas (basename nm) = none →
        extract_file_index_ds nm = 999999 ∧ extract_file_index_t1 nm = 0 := by
  have hslash : ∀ c ∈ ('t' :: 'e' :: 'x' :: 'a' :: 's' :: '(' ::
      (ds ++ [')', '.', 'p', 'g', 'n'])), (c != '/') = true := by
    intro c hc
    rcases List.mem_cons.mp hc with rfl | hc; · decide
    rcases List.mem_cons.mp hc with rfl | hc; · decide
    rcases List.mem_cons.mp hc with rfl | hc; · decide
    rcases List.mem_cons.mp hc with rfl | hc; · decide
    rcases List.mem_cons.mp hc with rfl | hc; · decide
    rcases List.mem_cons.mp hc with rfl | hc; · decide
    rcases List.mem_append.mp hc with hc | hc
    · exact digit_ne_slash c (hdig c hc)
    · rcases List.mem_cons.mp hc with rfl | hc; · decide
      rcases List.mem_cons.mp hc with rfl | hc; · decide
      rcases List.mem_cons.mp hc with rfl | hc; · decide
      rcases List.mem_cons.mp hc with rfl | hc; · decide
      rcases List.mem_cons.mp hc with rfl | hc; · decide
      exact absurd hc (List.not_mem_nil c)
  have hbase : basename ('t' :: 'e' :: 'x' :: 'a' :: 's' :: '(' ::
      (ds ++ [')', '.', 'p', 'g', 'n'])) = 't' :: 'e' :: 'x' :: 'a' :: 's' :: '(' ::
      (ds ++ [')', '.', 'p', 'g', 'n']) := basename_no_slash _ hslash
  have hmatch : matchTexas ('t' :: 'e' :: 'x' :: 'a' :: 's' :: '(' ::
      (ds ++ [')', '.', 'p', 'g', 'n'])) = some (some ds) := by
    show (if List.takeWhile Char.isDigit (ds ++ [')', '.', 'p', 'g', 'n']) ≠ [] ∧
          List.dropWhile Char.isDigit (ds ++ [')', '.', 'p', 'g', 'n'])
            = [')', '.', 'p', 'g', 'n']
        then some (some (List.takeWhile Char.isDigit (ds ++ [')', '.', 'p', 'g', 'n'])))
        else none)
      = some (some ds)
    rw [takeWhile_all_append _ ds ')' ['.', 'p', 'g', 'n'] hdig (by decide),
      dropWhile_all_append _ ds ')' ['.', 'p', 'g', 'n'] hdig (by decide),
      if_pos ⟨hne, rfl⟩]
  refine ⟨?_, ?_, rfl, rfl, ?_⟩
  · unfold extract_file_index_ds
    rw [hbase, hmatch]
  · unfold extract_file_index_t1
    rw [hbase, hmatch]
  · intro nm hnm
    constructor
    · unfold extract_file_index_ds
      rw [hnm]
    · unfold extract_file_index_t1
      rw [hnm]

/-- C9 witness: the amended key theorem at the concrete suffix `42`
yields index 42 for `texas(42).pgn` under both keys. -/
theorem C9_witness :
    extract_file_index_ds ("texas(42).pgn".toList) = 42
    ∧ extract_file_index_t1 ("texas(42).pgn".toList) = 42 := by
  have h := C9_file_index ['4', '2'] (by decide) (by decide)
  exact ⟨h.1, h.2.1⟩

/-- C10: for any table size `n ≥ 1` and hand ordinal, the Normalizer's
seat mapping is a bijection of `{0..n-1}` — its image is exactly
`{0..n-1}` with no collisions — and the rotated chip list is a
permutation of the input with the same length, rotation by 0 being the
identity. -/
theorem C10_rotation_bijection (n shift : Nat) (hn : 0 < n) (chips : List Int)
    (_hc : chips.length = n) :
    (Finset.image (fun i => seatMap n shift i) (Finset.range n) = Finset.range n)
    ∧ Set.InjOn (fun i => seatMap n shift i) (Set.Iio n)
    ∧ (rotate_right chips shift).Perm chips
    ∧ (rotate_right chips shift).length = chips.length
    ∧ rotate_right chips 0 = chips := by
  have hinj : Set.InjOn (fun i => seatMap n shift i) (Set.Iio n) := by
    intro i hi j hj hij
    have hmod : Nat.ModEq n (i + shift % n) (j + shift % n) := hij
    have hij2 : Nat.ModEq n i j := Nat.ModEq.add_right_cancel' _ hmod
    have : i % n = j % n := hij2
    rwa [Nat.mod_eq_of_lt hi, Nat.mod_eq_of_lt hj] at this
  have himg : Finset.image (fun i => seatMap n shift i) (Finset.range n) = Finset.range n := by
    apply Finset.eq_of_subset_of_card_le
    · intro x hx
      rw [Finset.mem_image] at hx
      obtain ⟨i, _, rfl⟩ := hx
      exact Finset.mem_range.mpr (Nat.mod_lt _ hn)
    · rw [Finset.card_image_of_injOn (by rw [Finset.coe_range]; exact hinj)]
  have hperm : (rotate_right chips shift).Perm chips := by
    unfold rotate_right
    split
    · exact List.Perm.refl chips
    · have h2 : (chips.drop (chips.length - shift % chips.length)
            ++ chips.take (chips.length - shift % chips.length)).Perm
          (chips.take (chips.length - shift % chips.length)
            ++ chips.drop (chips.length - shift % chips.length)) :=
        List.perm_append_comm
      rw [List.take_append_drop] at h2
      exact h2
  refine ⟨himg, hinj, hperm, hperm.length_eq, ?_⟩
  unfold rotate_right
  rw [Nat.zero_mod, if_pos rfl]

/-- C10 witness: for table size 3 and ordinal 1 the seat mapping's image
is all of `{0,1,2}` and the rotated chip list is a permutation of the
input; rotation by 0 leaves the list unchanged. -/
theorem C10_witness :
    (Finset.image (fun i => seatMap 3 1 i) (Finset.range 3) = Finset.range 3)
    ∧ (rotate_right [500, 495, 507] 1).Perm [500, 495, 507]
    ∧ rotate_right [500, 495, 507] 0 = [500, 495, 507] := by
  have h := C10_rotation_bijection 3 1 (by decide) [500, 495, 507] (by decide)
  exact ⟨h.1, h.2.2.1, h.2.2.2.2⟩
